import Mathlib

/-!
Verification of the camera_simulator repository.

A shallow embedding of the schedule generators (`src/patterns.py`), the
artifact naming logic and retention enforcement (`src/camera.py`), and the
coordinator's window computation (`src/simulator.py`).

Modelling conventions:
* Absolute times and durations are rationals, measured in minutes
  (Python `datetime` arithmetic is exact, `timedelta(minutes=d)` adds `d`
  minutes; `(end - cur).total_seconds() / 60` is the exact difference in
  minutes).
* Calls to `random.uniform(a, b)` are modelled by an oracle stream
  `draws : ℕ → ℚ`, consumed left to right; theorems constrain the stream
  (e.g. every draw lies in the sampled range).  Calls to
  `random.choice([True, False])` are modelled by a separate oracle stream
  `coins : ℕ → Bool`.
* Python `while` loops are modelled with explicit fuel.  A result with
  `completed = false` means the fuel ran out while the Python loop was
  still running; `completed = true` means the loop exited by itself.
* Python exceptions that a generator can raise (an `IndexError` from
  indexing a malformed configuration range) are modelled with
  `Except String`.
-/

/-- Embeds the `RecordingEvent` dataclass of `src/patterns.py` (lines 20-25):
`start_time`, `duration_minutes` and the (always empty at generation time)
`filename`. -/
structure RecordingEvent where
  startTime : ℚ
  durationMinutes : ℚ
  filename : String
deriving DecidableEq, Repr

/-- Result of one generator loop: the emitted events, whether the `while`
loop exited by itself (`completed`, false = fuel ran out), the final value
of `current_time` (`cursor`) and the next unused index of the uniform-draw
oracle stream. -/
structure LoopResult where
  events : List RecordingEvent
  completed : Bool
  cursor : ℚ
  next : ℕ
deriving DecidableEq, Repr

/-- Embeds the per-camera pattern `config` dict as far as the generators in
`src/patterns.py` read it: the optional `video_duration_range` and
`idle_duration_range` entries.  `none` models an absent key
(`config.get(key, default)` then yields the default), and the lists are kept
as lists because Python indexes them (`range[0]`, `range[1]`) and a list
that is too short raises `IndexError`. -/
structure PatternConfig where
  videoDurationRange : Option (List ℚ) := none
  idleDurationRange : Option (List ℚ) := none
deriving DecidableEq, Repr

/-- Embeds the `while current_time < end_time` loop of `_generate_continuous`
(`src/patterns.py` lines 45-69).  `dr` is the `duration_range` list; its two
ends are indexed on every iteration (a short list raises `IndexError`,
modelled as `Except.error`).  The sampled duration `random.uniform(dr[0],
dr[1])` is the oracle value `draws k`.  If the event would cross `end_time`
the duration is truncated to exactly reach it, and a truncated duration
below `0.1` minutes breaks out of the loop without emitting. -/
def continuousLoop (dr : List ℚ) (endT : ℚ) (draws : ℕ → ℚ) :
    ℕ → ℚ → ℕ → Except String LoopResult
  | 0, c, k => .ok ⟨[], false, c, k⟩
  | fuel + 1, c, k =>
    if c < endT then
      match dr[0]?, dr[1]? with
      | some _, some _ =>
        if c + draws k > endT then
          if endT - c < 1/10 then
            .ok ⟨[], true, c, k⟩
          else
            match continuousLoop dr endT draws fuel (c + (endT - c)) (k + 1) with
            | .ok r => .ok ⟨⟨c, endT - c, ""⟩ :: r.events, r.completed, r.cursor, r.next⟩
            | .error msg => .error msg
        else
          match continuousLoop dr endT draws fuel (c + draws k) (k + 1) with
          | .ok r => .ok ⟨⟨c, draws k, ""⟩ :: r.events, r.completed, r.cursor, r.next⟩
          | .error msg => .error msg
      | _, _ => .error "IndexError"
    else .ok ⟨[], true, c, k⟩

/-- Embeds `_generate_continuous` (`src/patterns.py` lines 45-69):
`duration_range = config.get("video_duration_range", [15, 15])` followed
by the back-to-back event loop. -/
def generate_continuous (cfg : PatternConfig) (s endT : ℚ) (draws : ℕ → ℚ)
    (k fuel : ℕ) : Except String LoopResult :=
  continuousLoop (cfg.videoDurationRange.getD [15, 15]) endT draws fuel s k

/-- The end-of-window truncation of `_generate_motion` / `_generate_event`
(`src/patterns.py` lines 89-90): a sampled duration `d0` for an event
starting at `c1` is replaced by `endT - c1` when it would cross the window
end. -/
def truncAt (endT c1 d0 : ℚ) : ℚ :=
  if c1 + d0 > endT then endT - c1 else d0

/-- Embeds the loop of `_generate_motion` (`src/patterns.py` lines 71-101):
an idle gap sampled from `idle_range` first (so the cursor moves to
`c + draws k`), break if the gap reaches `end_time`, then a recording
duration sampled from `video_range` (`draws (k+1)`), truncated at
`end_time`, and appended only when strictly above `0.1` minutes. -/
def motionLoop (vr ir : List ℚ) (endT : ℚ) (draws : ℕ → ℚ) :
    ℕ → ℚ → ℕ → Except String LoopResult
  | 0, c, k => .ok ⟨[], false, c, k⟩
  | fuel + 1, c, k =>
    if c < endT then
      match ir[0]?, ir[1]? with
      | some _, some _ =>
        if c + draws k ≥ endT then
          .ok ⟨[], true, c + draws k, k + 1⟩
        else
          match vr[0]?, vr[1]? with
          | some _, some _ =>
            match motionLoop vr ir endT draws fuel
                (c + draws k + truncAt endT (c + draws k) (draws (k + 1))) (k + 2) with
            | .ok r =>
              .ok ⟨(if truncAt endT (c + draws k) (draws (k + 1)) > 1/10 then
                      [⟨c + draws k, truncAt endT (c + draws k) (draws (k + 1)), ""⟩]
                    else []) ++ r.events,
                   r.completed, r.cursor, r.next⟩
            | .error msg => .error msg
          | _, _ => .error "IndexError"
      | _, _ => .error "IndexError"
    else .ok ⟨[], true, c, k⟩

/-- Embeds `_generate_motion` (`src/patterns.py` lines 71-101) with its
defaults `video_duration_range = [5, 20]` and `idle_duration_range =
[10, 30]`. -/
def generate_motion (cfg : PatternConfig) (s endT : ℚ) (draws : ℕ → ℚ)
    (k fuel : ℕ) : Except String LoopResult :=
  motionLoop (cfg.videoDurationRange.getD [5, 20])
    (cfg.idleDurationRange.getD [10, 30]) endT draws fuel s k

/-- Embeds the loop of `_generate_event` (`src/patterns.py` lines 103-132).
The Python loop body is textually identical to the one of
`_generate_motion`, so this definition repeats `motionLoop` verbatim; the
two functions differ only in their default parameter values. -/
def eventLoop (vr ir : List ℚ) (endT : ℚ) (draws : ℕ → ℚ) :
    ℕ → ℚ → ℕ → Except String LoopResult
  | 0, c, k => .ok ⟨[], false, c, k⟩
  | fuel + 1, c, k =>
    if c < endT then
      match ir[0]?, ir[1]? with
      | some _, some _ =>
        if c + draws k ≥ endT then
          .ok ⟨[], true, c + draws k, k + 1⟩
        else
          match vr[0]?, vr[1]? with
          | some _, some _ =>
            match eventLoop vr ir endT draws fuel
                (c + draws k + truncAt endT (c + draws k) (draws (k + 1))) (k + 2) with
            | .ok r =>
              .ok ⟨(if truncAt endT (c + draws k) (draws (k + 1)) > 1/10 then
                      [⟨c + draws k, truncAt endT (c + draws k) (draws (k + 1)), ""⟩]
                    else []) ++ r.events,
                   r.completed, r.cursor, r.next⟩
            | .error msg => .error msg
          | _, _ => .error "IndexError"
      | _, _ => .error "IndexError"
    else .ok ⟨[], true, c, k⟩

/-- Embeds `_generate_event` (`src/patterns.py` lines 103-132) with its
defaults `video_duration_range = [3, 10]` and `idle_duration_range =
[20, 60]`. -/
def generate_event (cfg : PatternConfig) (s endT : ℚ) (draws : ℕ → ℚ)
    (k fuel : ℕ) : Except String LoopResult :=
  eventLoop (cfg.videoDurationRange.getD [3, 10])
    (cfg.idleDurationRange.getD [20, 60]) endT draws fuel s k

/-- Embeds the loop of `_generate_random` (`src/patterns.py` lines 134-153):
each iteration flips a fair coin (`coins k`), samples a block length from
`uniform(60, 240)` (`draws k`), clamps the block at `end_time`, fills an
"on" block with `_generate_continuous` over the block sub-window, and moves
the cursor to the block end.  If the inner continuous call runs out of fuel
the outer loop stops as well (the real program would still be inside the
inner loop). -/
def randomLoop (cfg : PatternConfig) (endT : ℚ) (draws : ℕ → ℚ)
    (coins : ℕ → Bool) : ℕ → ℚ → ℕ → Except String LoopResult
  | 0, c, k => .ok ⟨[], false, c, k⟩
  | fuel + 1, c, k =>
    if c < endT then
      if coins k then
        match generate_continuous cfg c (min (c + draws k) endT) draws (k + 1) fuel with
        | .ok r =>
          if r.completed then
            match randomLoop cfg endT draws coins fuel (min (c + draws k) endT) r.next with
            | .ok r2 => .ok ⟨r.events ++ r2.events, r2.completed, r2.cursor, r2.next⟩
            | .error msg => .error msg
          else .ok ⟨r.events, false, r.cursor, r.next⟩
        | .error msg => .error msg
      else
        match randomLoop cfg endT draws coins fuel (min (c + draws k) endT) (k + 1) with
        | .ok r2 => .ok ⟨r2.events, r2.completed, r2.cursor, r2.next⟩
        | .error msg => .error msg
    else .ok ⟨[], true, c, k⟩

/-- Embeds `_generate_random` (`src/patterns.py` lines 134-153). -/
def generate_random (cfg : PatternConfig) (s endT : ℚ) (draws : ℕ → ℚ)
    (coins : ℕ → Bool) (k fuel : ℕ) : Except String LoopResult :=
  randomLoop cfg endT draws coins fuel s k

/-- The dispatch of `create_pattern` (`src/patterns.py` lines 27-43) before
its `except` clause: the four recognized pattern strings select their
generator, any other string falls through to the continuous generator. -/
def patternResult (pt : String) (cfg : PatternConfig) (s endT : ℚ)
    (draws : ℕ → ℚ) (coins : ℕ → Bool) (fuel : ℕ) : Except String LoopResult :=
  if pt = "continuous" then generate_continuous cfg s endT draws 0 fuel
  else if pt = "motion_triggered" then generate_motion cfg s endT draws 0 fuel
  else if pt = "event_triggered" then generate_event cfg s endT draws 0 fuel
  else if pt = "random_on_off" then generate_random cfg s endT draws coins 0 fuel
  else generate_continuous cfg s endT draws 0 fuel

/-- Embeds `create_pattern` (`src/patterns.py` lines 27-43): the dispatch
wrapped in `try/except Exception`, which turns any exception raised during
generation into an empty event list. -/
def create_pattern (pt : String) (cfg : PatternConfig) (s endT : ℚ)
    (draws : ℕ → ℚ) (coins : ℕ → Bool) (fuel : ℕ) : List RecordingEvent :=
  match patternResult pt cfg s endT draws coins fuel with
  | .ok r => r.events
  | .error _ => []

/-- The end of an event: `start_time + duration_minutes`. -/
def evEnd (ev : RecordingEvent) : ℚ := ev.startTime + ev.durationMinutes

/-- Every event of the list starts no earlier than `lo` and ends no later
than `hi`. -/
def InWindow (lo hi : ℚ) (evs : List RecordingEvent) : Prop :=
  ∀ ev ∈ evs, lo ≤ ev.startTime ∧ evEnd ev ≤ hi

/-- Consecutive events do not overlap: each ends no later than the next
starts. -/
def EvOrdered (evs : List RecordingEvent) : Prop :=
  List.Chain' (fun a b => evEnd a ≤ b.startTime) evs

/-- Whether a loop run exited by itself (false also for a raised
exception). -/
def loopCompleted (x : Except String LoopResult) : Bool :=
  match x with
  | .ok r => r.completed
  | .error _ => false

/-- The final cursor of a loop run (zero for a raised exception). -/
def loopCursor (x : Except String LoopResult) : ℚ :=
  match x with
  | .ok r => r.cursor
  | .error _ => 0

/-- The continuous generator terminates on the given inputs: some fuel
makes its loop exit by itself. -/
def continuousTerminates (cfg : PatternConfig) (s endT : ℚ)
    (draws : ℕ → ℚ) : Prop :=
  ∃ fuel, loopCompleted (generate_continuous cfg s endT draws 0 fuel) = true

/-- Embeds the timestamp carried by `event.start_time` as far as the naming
code of `src/camera.py` formats it (`strftime` with year, month, day, hour,
minute, second fields). -/
structure DateTime where
  year : ℕ
  month : ℕ
  day : ℕ
  hour : ℕ
  minute : ℕ
  second : ℕ
deriving DecidableEq, Repr

/-- Zero-padding to two digits, as `%m`, `%d`, `%H`, `%M`, `%S` and the
Python format `f"{n:02d}"` produce. -/
def pad2 (n : ℕ) : String :=
  if n < 10 then "0" ++ toString n else toString n

/-- Zero-padding to four digits, as `%Y` produces. -/
def pad4 (n : ℕ) : String :=
  if n < 10 then "000" ++ toString n
  else if n < 100 then "00" ++ toString n
  else if n < 1000 then "0" ++ toString n
  else toString n

/-- `now.strftime("%Y%m%d")` (`src/camera.py` line 94). -/
def fmtCompactDate (t : DateTime) : String :=
  pad4 t.year ++ pad2 t.month ++ pad2 t.day

/-- `now.strftime("%Y-%m-%d")` (`src/camera.py` line 114, dahua profile). -/
def fmtHyphenDate (t : DateTime) : String :=
  pad4 t.year ++ "-" ++ pad2 t.month ++ "-" ++ pad2 t.day

/-- `now.strftime("%H%M%S")` (`src/camera.py` line 95). -/
def fmtCompactTime (t : DateTime) : String :=
  pad2 t.hour ++ pad2 t.minute ++ pad2 t.second

/-- `now.strftime("%H.%M.%S")` (`src/camera.py` line 115, dahua profile). -/
def fmtDotTime (t : DateTime) : String :=
  pad2 t.hour ++ "." ++ pad2 t.minute ++ "." ++ pad2 t.second

/-- `now.strftime("%Y%m%d_%H%M%S")` (`src/camera.py` line 96). -/
def fmtTimestamp (t : DateTime) : String :=
  fmtCompactDate t ++ "_" ++ fmtCompactTime t

/-- Python `int()` on a digit-only string: fold the decimal digits. -/
def digitsToNat (ds : List Char) : ℕ :=
  ds.foldl (fun n c => n * 10 + (c.toNat - 48)) 0

/-- Embeds the channel extraction of `src/camera.py` lines 88-89:
the digit characters of the name joined together, defaulting to "01" when
there are none, followed by
`f"{int(...):02d}"`. -/
def channelId (name : String) : String :=
  let ds := name.toList.filter Char.isDigit
  pad2 (digitsToNat (if ds.isEmpty then ['0', '1'] else ds))

/-- Embeds the `vars` dict of `src/camera.py` lines 91-98 after the
profile adjustment of lines 112-117: profile `dahua` switches `date` to
the hyphenated form and `time` to the dotted form, every other profile
keeps the compact forms (the `imou`/`tapo` branch re-assigns the same
compact date). -/
def templateVars (name profile : String) (t : DateTime) : List (String × String) :=
  [("name", name),
   ("channel", channelId name),
   ("date", if profile = "dahua" then fmtHyphenDate t else fmtCompactDate t),
   ("time", if profile = "dahua" then fmtDotTime t else fmtCompactTime t),
   ("timestamp", fmtTimestamp t),
   ("type", "Main")]

/-- The two ways `template.format(**vars)` can fail on the templates this
program renders: `KeyError` (unknown named placeholder — caught by
`src/camera.py` line 121) and the uncaught errors (`IndexError` from a
positional or auto-numbered placeholder, `ValueError` from unbalanced
braces), collapsed into `valueError`. -/
inductive RenderError where
  | keyError (key : String)
  | valueError
deriving DecidableEq, Repr

/-- Dict lookup in the `vars` association list. -/
def lookupVar (vars : List (String × String)) (k : String) : Option String :=
  (vars.find? (fun p => p.1 == k)).map (fun p => p.2)

/-- The opening curly brace character. -/
def lbraceChar : Char := Char.ofNat 123

/-- The closing curly brace character. -/
def rbraceChar : Char := Char.ofNat 125

/-- Scanner state of the template renderer: plain text, just after an
opening brace, just after a closing brace, or inside a replacement field. -/
inductive FmtState where
  | text
  | lb
  | rb
  | field
deriving DecidableEq, Repr

/-- Embeds the subset of Python `str.format(**vars)` exercised by the
naming templates, one character at a time.  Arguments: remaining input,
accumulated field characters (reversed), scanner state.  Replacement
fields are simple names; a field name that is empty or all digits is a
positional / auto-numbered field, which raises `IndexError` (`valueError`
here) because `format` is called with keyword arguments only; an unknown
name raises `KeyError`.  A conversion or format spec (`!`/`:` suffix) is
stripped from the looked-up key, and its effect on the rendered value is
not modelled (no template in this repository uses one).  Doubled braces
escape a literal brace; an unmatched or nested single brace raises
`ValueError`. -/
def formatAux (vars : List (String × String)) :
    List Char → List Char → FmtState → Except RenderError String
  | [], _, .text => .ok ""
  | [], _, .lb => .error .valueError
  | [], _, .rb => .error .valueError
  | [], _, .field => .error .valueError
  | c :: cs, acc, .text =>
    if c = lbraceChar then formatAux vars cs acc .lb
    else if c = rbraceChar then formatAux vars cs acc .rb
    else
      match formatAux vars cs acc .text with
      | .ok rest => .ok (String.singleton c ++ rest)
      | .error e2 => .error e2
  | c :: cs, acc, .lb =>
    if c = lbraceChar then
      match formatAux vars cs acc .text with
      | .ok rest => .ok (String.singleton lbraceChar ++ rest)
      | .error e2 => .error e2
    else if c = rbraceChar then .error .valueError
    else formatAux vars cs [c] .field
  | c :: cs, acc, .rb =>
    if c = rbraceChar then
      match formatAux vars cs acc .text with
      | .ok rest => .ok (String.singleton rbraceChar ++ rest)
      | .error e2 => .error e2
    else .error .valueError
  | c :: cs, acc, .field =>
    if c = rbraceChar then
      if (acc.reverse.takeWhile (fun ch => !(ch == ':' || ch == '!'))).all Char.isDigit then
        .error .valueError
      else
        match lookupVar vars
            (String.mk (acc.reverse.takeWhile (fun ch => !(ch == ':' || ch == '!')))) with
        | some v =>
          match formatAux vars cs [] .text with
          | .ok rest => .ok (v ++ rest)
          | .error e2 => .error e2
        | none =>
          .error (.keyError
            (String.mk (acc.reverse.takeWhile (fun ch => !(ch == ':' || ch == '!')))))
    else if c = lbraceChar then .error .valueError
    else formatAux vars cs (c :: acc) .field

/-- `template.format(**vars)` on a whole template string. -/
def formatString (tpl : String) (vars : List (String × String)) :
    Except RenderError String :=
  formatAux vars tpl.toList [] .text

/-- The fallback filename of `src/camera.py` line 123: the Python f-string
joining the camera name, an underscore, the compact timestamp and the
`.mp4` extension. -/
def fallbackName (name : String) (t : DateTime) : String :=
  name ++ "_" ++ fmtTimestamp t ++ ".mp4"

/-- Embeds the template rendering of `src/camera.py` lines 107-124: render
the naming template, then the directory template; a `KeyError` from either
is caught and replaced by the fallback filename with an empty subdirectory;
any other formatting error propagates (the `except` clause catches
`KeyError` only). -/
def renderArtifact (namingTemplate dirTemplate name profile : String)
    (t : DateTime) : Except RenderError (String × String) :=
  match formatString namingTemplate (templateVars name profile t) with
  | .ok fn =>
    match formatString dirTemplate (templateVars name profile t) with
    | .ok sd => .ok (fn, sd)
    | .error (.keyError _) => .ok (fallbackName name t, "")
    | .error .valueError => .error .valueError
  | .error (.keyError _) => .ok (fallbackName name t, "")
  | .error .valueError => .error .valueError

/-- One file known to the retention model: its path relative to the
camera's output root and its modification time. -/
structure FileEntry where
  path : String
  mtime : ℚ
deriving DecidableEq, Repr

/-- Embeds the `simulator` global-config keys read by
`CameraSimulator._cleanup_old_files` (`src/camera.py` lines 153-169):
`cleanup_old_files` (default `True`) and `retention_count` (default 100).
`none` models an absent key. -/
structure GlobalConfig where
  cleanupOldFiles : Option Bool := none
  retentionCount : Option ℕ := none
deriving DecidableEq, Repr

/-- Embeds `Path(output_folder).glob("*.mp4")`: the pattern matches a name
that ends in `.mp4` and, being a single non-recursive component, contains
no path separator — files in subdirectories are not listed. -/
def matchesGlobMp4 (p : String) : Bool :=
  (String.toList ".mp4").isSuffixOf p.toList && !(p.toList.contains '/')

/-- Ascending order on modification time, the sort key of
`sorted(..., key=os.path.getmtime)`. -/
def mtimeLe (a b : FileEntry) : Prop := a.mtime ≤ b.mtime

instance : DecidableRel mtimeLe := fun a b => inferInstanceAs (Decidable (a.mtime ≤ b.mtime))

instance : IsTotal FileEntry mtimeLe := ⟨fun a b => le_total a.mtime b.mtime⟩

instance : IsTrans FileEntry mtimeLe := ⟨fun _ _ _ h1 h2 => le_trans h1 h2⟩

/-- Embeds `CameraSimulator._cleanup_old_files` (`src/camera.py` lines
153-169), returning the list of deleted files: no-op when
`cleanup_old_files` is disabled; otherwise the `*.mp4` files directly in
the output folder are sorted by modification time ascending and, when they
exceed `retention_count`, the excess oldest ones are deleted.  `entries`
is the directory tree under the camera's output root (paths relative to
it). -/
def cleanup_old_files (g : GlobalConfig) (entries : List FileEntry) : List FileEntry :=
  if (g.cleanupOldFiles.getD true) = false then []
  else
    let retention := g.retentionCount.getD 100
    let files := (entries.filter (fun f => matchesGlobMp4 f.path)).insertionSort mtimeLe
    if retention < files.length then files.take (files.length - retention) else []

/-- Embeds `os.path.join` for one relative component as used in
`src/camera.py` lines 127-129: joining `subdir` and `filename` inserts a
separator unless `subdir` is empty or already ends with one. -/
def joinPath (a b : String) : String :=
  if a = "" then b
  else if a.toList.getLast? = some '/' then a ++ b
  else a ++ "/" ++ b

/-- Embeds the duration lookup of `Simulator.start` (`src/simulator.py`
line 63): `config.get("simulator", ...).get("run_duration_hours", 24)`. -/
def run_duration (runDurationHours : Option ℚ) : ℚ :=
  runDurationHours.getD 24

/-- Embeds the window-end computation of `CameraSimulator.generate_schedule`
(`src/camera.py` line 39): `start + timedelta(hours=duration_hours)` when
the duration is positive, else `start + timedelta(days=365)`; times in
minutes. -/
def schedule_end (s durationHours : ℚ) : ℚ :=
  if durationHours > 0 then s + durationHours * 60 else s + 365 * 24 * 60

/-- Embeds `CameraSimulator.generate_schedule` (`src/camera.py` lines
37-48): compute the window end, then call `create_pattern` over it. -/
def generate_schedule (pt : String) (cfg : PatternConfig) (s durationHours : ℚ)
    (draws : ℕ → ℚ) (coins : ℕ → Bool) (fuel : ℕ) : List RecordingEvent :=
  create_pattern pt cfg s (schedule_end s durationHours) draws coins fuel

/-- A member of `l.head?` is a member of `l`. -/
theorem mem_of_headOpt {α : Type} {y : α} {l : List α} (h : y ∈ l.head?) : y ∈ l := by
  cases l with
  | nil => simp at h
  | cons a t =>
    simp only [List.head?, Option.mem_def, Option.some.injEq] at h
    subst h
    exact List.mem_cons_self _ _

/-- A member of `l.getLast?` is a member of `l`. -/
theorem mem_of_getLastOpt {α : Type} {x : α} {l : List α} (h : x ∈ l.getLast?) : x ∈ l := by
  obtain ⟨hne, rfl⟩ := List.mem_getLast?_eq_getLast h
  exact List.getLast_mem hne

/-- Invariant of the continuous loop: starting the cursor at `c`, every
emitted event starts at or after `c` and ends at or before `end_time`, and
consecutive events do not overlap. -/
theorem continuousLoop_inv (dr : List ℚ) (endT : ℚ) (draws : ℕ → ℚ)
    (hd : ∀ j, 0 ≤ draws j) :
    ∀ fuel c k r, continuousLoop dr endT draws fuel c k = .ok r →
      InWindow c endT r.events ∧ EvOrdered r.events := by
  intro fuel
  induction fuel with
  | zero =>
    intro c k r h
    simp only [continuousLoop, Except.ok.injEq] at h
    subst h
    simp [InWindow, EvOrdered]
  | succ fuel ih =>
    intro c k r h
    rw [continuousLoop] at h
    split at h
    · rename_i hce
      split at h
      · rename_i a b h0 h1
        split at h
        · rename_i htr
          split at h
          · simp only [Except.ok.injEq] at h
            subst h
            simp [InWindow, EvOrdered]
          · rename_i hshort
            split at h
            · rename_i r' heq
              simp only [Except.ok.injEq] at h
              subst h
              obtain ⟨hw, ho⟩ := ih _ _ _ heq
              constructor
              · intro ev hev
                rcases List.mem_cons.mp hev with rfl | hev'
                · exact ⟨le_refl _, by simp [evEnd]⟩
                · have hb := hw ev hev'
                  exact ⟨by linarith [hb.1], hb.2⟩
              · refine List.chain'_cons'.mpr ⟨?_, ho⟩
                intro y hy
                have hb := (hw y (mem_of_headOpt hy)).1
                simp only [evEnd]
                linarith
            · exact absurd h (by simp)
        · rename_i htr
          split at h
          · rename_i r' heq
            simp only [Except.ok.injEq] at h
            subst h
            obtain ⟨hw, ho⟩ := ih _ _ _ heq
            have hd0 : 0 ≤ draws k := hd k
            constructor
            · intro ev hev
              rcases List.mem_cons.mp hev with rfl | hev'
              · exact ⟨le_refl _, by simp only [evEnd]; linarith⟩
              · have hb := hw ev hev'
                exact ⟨by linarith [hb.1], hb.2⟩
            · refine List.chain'_cons'.mpr ⟨?_, ho⟩
              intro y hy
              have hb := (hw y (mem_of_headOpt hy)).1
              simp only [evEnd]
              linarith
          · exact absurd h (by simp)
      · exact absurd h (by simp)
    · simp only [Except.ok.injEq] at h
      subst h
      simp [InWindow, EvOrdered]

/-- The truncated duration never lets an event cross the window end. -/
theorem truncAt_add_le (endT c1 d0 : ℚ) : c1 + truncAt endT c1 d0 ≤ endT ∨ truncAt endT c1 d0 = d0 := by
  unfold truncAt
  split
  · left; linarith
  · right; rfl

/-- The truncated duration is nonnegative whenever the event starts inside
the window and the sampled duration is nonnegative. -/
theorem truncAt_nonneg {endT c1 d0 : ℚ} (h1 : c1 ≤ endT) (h2 : 0 ≤ d0) :
    0 ≤ truncAt endT c1 d0 := by
  unfold truncAt
  split
  · linarith
  · exact h2

/-- The event end `c1 + truncAt endT c1 d0` stays at or below `endT` as soon
as the sampled duration is handled by the truncation rule. -/
theorem truncAt_end_le {endT c1 d0 : ℚ} : c1 + truncAt endT c1 d0 ≤ max endT (c1 + d0) := by
  unfold truncAt
  split
  · calc c1 + (endT - c1) = endT := by ring
    _ ≤ max endT (c1 + d0) := le_max_left _ _
  · exact le_max_right _ _

/-- In the untruncated case the event end is below `endT` by the branch
condition, so the end is always at most `endT`. -/
theorem truncAt_end_le_endT {endT c1 d0 : ℚ} : c1 + truncAt endT c1 d0 ≤ endT := by
  unfold truncAt
  split
  · linarith
  · rename_i hle
    push_neg at hle
    exact hle

/-- Invariant of the motion loop: starting the cursor at `c`, every emitted
event starts at or after `c` and ends at or before `end_time`, and
consecutive events do not overlap. -/
theorem motionLoop_inv (vr ir : List ℚ) (endT : ℚ) (draws : ℕ → ℚ)
    (hd : ∀ j, 0 ≤ draws j) :
    ∀ fuel c k r, motionLoop vr ir endT draws fuel c k = .ok r →
      InWindow c endT r.events ∧ EvOrdered r.events := by
  intro fuel
  induction fuel with
  | zero =>
    intro c k r h
    simp only [motionLoop, Except.ok.injEq] at h
    subst h
    simp [InWindow, EvOrdered]
  | succ fuel ih =>
    intro c k r h
    rw [motionLoop] at h
    split at h
    · rename_i hce
      split at h
      · rename_i a b h0 h1
        split at h
        · simp only [Except.ok.injEq] at h
          subst h
          simp [InWindow, EvOrdered]
        · rename_i hidle
          push_neg at hidle
          split at h
          · rename_i va vb hv0 hv1
            split at h
            · rename_i r' heq
              simp only [Except.ok.injEq] at h
              subst h
              obtain ⟨hw, ho⟩ := ih _ _ _ heq
              have hkc : c ≤ c + draws k := by linarith [hd k]
              have hdnn : 0 ≤ truncAt endT (c + draws k) (draws (k + 1)) :=
                truncAt_nonneg hidle.le (hd (k + 1))
              have hend : c + draws k + truncAt endT (c + draws k) (draws (k + 1)) ≤ endT :=
                truncAt_end_le_endT
              by_cases hemit : truncAt endT (c + draws k) (draws (k + 1)) > 1/10
              · simp only [if_pos hemit, List.singleton_append]
                constructor
                · intro ev hev
                  rcases List.mem_cons.mp hev with rfl | hev'
                  · exact ⟨hkc, by simpa [evEnd] using hend⟩
                  · have hb := hw ev hev'
                    exact ⟨by linarith [hb.1], hb.2⟩
                · refine List.chain'_cons'.mpr ⟨?_, ho⟩
                  intro y hy
                  have hb := (hw y (mem_of_headOpt hy)).1
                  simp only [evEnd]
                  linarith
              · simp only [if_neg hemit, List.nil_append]
                refine ⟨fun ev hev => ?_, ho⟩
                have hb := hw ev hev
                exact ⟨by linarith [hb.1], hb.2⟩
            · exact absurd h (by simp)
          · exact absurd h (by simp)
      · exact absurd h (by simp)
    · simp only [Except.ok.injEq] at h
      subst h
      simp [InWindow, EvOrdered]

/-- The event-triggered loop is the same function as the motion-triggered
loop: the Python bodies are textually identical. -/
theorem eventLoop_eq_motionLoop (vr ir : List ℚ) (endT : ℚ) (draws : ℕ → ℚ) :
    ∀ fuel c k, eventLoop vr ir endT draws fuel c k = motionLoop vr ir endT draws fuel c k := by
  intro fuel
  induction fuel with
  | zero => intro c k; rfl
  | succ fuel ih =>
    intro c k
    rw [eventLoop, motionLoop]
    simp only [ih]

/-- Invariant of the random on/off loop: starting the cursor at `c`, every
emitted event starts at or after `c` and ends at or before `end_time`, and
consecutive events do not overlap. -/
theorem randomLoop_inv (cfg : PatternConfig) (endT : ℚ) (draws : ℕ → ℚ)
    (coins : ℕ → Bool) (hd : ∀ j, 0 ≤ draws j) :
    ∀ fuel c k r, randomLoop cfg endT draws coins fuel c k = .ok r →
      InWindow c endT r.events ∧ EvOrdered r.events := by
  intro fuel
  induction fuel with
  | zero =>
    intro c k r h
    simp only [randomLoop, Except.ok.injEq] at h
    subst h
    simp [InWindow, EvOrdered]
  | succ fuel ih =>
    intro c k r h
    rw [randomLoop] at h
    split at h
    · rename_i hce
      have hcbe : c ≤ min (c + draws k) endT := le_min (by linarith [hd k]) hce.le
      have hbee : min (c + draws k) endT ≤ endT := min_le_right _ _
      split at h
      · split at h
        · rename_i r1 heq1
          rw [generate_continuous] at heq1
          obtain ⟨hw1, ho1⟩ := continuousLoop_inv _ _ _ hd _ _ _ _ heq1
          split at h
          · split at h
            · rename_i r2 heq2
              simp only [Except.ok.injEq] at h
              subst h
              obtain ⟨hw2, ho2⟩ := ih _ _ _ heq2
              constructor
              · intro ev hev
                rcases List.mem_append.mp hev with hev1 | hev2
                · have hb := hw1 ev hev1
                  exact ⟨hb.1, le_trans hb.2 hbee⟩
                · have hb := hw2 ev hev2
                  exact ⟨le_trans hcbe hb.1, hb.2⟩
              · refine List.Chain'.append ho1 ho2 ?_
                intro x hx y hy
                have hbx := (hw1 x (mem_of_getLastOpt hx)).2
                have hby := (hw2 y (mem_of_headOpt hy)).1
                exact le_trans hbx hby
            · exact absurd h (by simp)
          · simp only [Except.ok.injEq] at h
            subst h
            refine ⟨fun ev hev => ?_, ho1⟩
            have hb := hw1 ev hev
            exact ⟨hb.1, le_trans hb.2 hbee⟩
        · exact absurd h (by simp)
      · split at h
        · rename_i r2 heq2
          simp only [Except.ok.injEq] at h
          subst h
          obtain ⟨hw2, ho2⟩ := ih _ _ _ heq2
          refine ⟨fun ev hev => ?_, ho2⟩
          have hb := hw2 ev hev
          exact ⟨le_trans hcbe hb.1, hb.2⟩
        · exact absurd h (by simp)
    · simp only [Except.ok.injEq] at h
      subst h
      simp [InWindow, EvOrdered]

/-- Invariant lifted to the dispatch of `create_pattern`: whichever
generator runs, a successfully produced schedule lies inside the requested
window and is ordered. -/
theorem patternResult_inv (pt : String) (cfg : PatternConfig) (s endT : ℚ)
    (draws : ℕ → ℚ) (coins : ℕ → Bool) (fuel : ℕ) (hd : ∀ j, 0 ≤ draws j)
    (r : LoopResult) (h : patternResult pt cfg s endT draws coins fuel = .ok r) :
    InWindow s endT r.events ∧ EvOrdered r.events := by
  rw [patternResult] at h
  split at h
  · rw [generate_continuous] at h
    exact continuousLoop_inv _ _ _ hd _ _ _ _ h
  · split at h
    · rw [generate_motion] at h
      exact motionLoop_inv _ _ _ _ hd _ _ _ _ h
    · split at h
      · rw [generate_event] at h
        rw [eventLoop_eq_motionLoop] at h
        exact motionLoop_inv _ _ _ _ hd _ _ _ _ h
      · split at h
        · rw [generate_random] at h
          exact randomLoop_inv _ _ _ _ hd _ _ _ _ h
        · rw [generate_continuous] at h
          exact continuousLoop_inv _ _ _ hd _ _ _ _ h

/-- C1: for every pattern kind, parameter set and time window, the schedule
returned by `create_pattern` is time-ordered and non-overlapping
(`event[i].start_time + event[i].duration_minutes ≤ event[i+1].start_time`
for consecutive events) and no event — in particular not the last one —
ends after the requested window end.  The hypothesis states that every
uniform draw is nonnegative, which holds for every parameter set whose
configured ranges are nonnegative (durations and idle gaps in minutes). -/
theorem c1_create_pattern_ordered_within_window (pt : String) (cfg : PatternConfig)
    (s endT : ℚ) (draws : ℕ → ℚ) (coins : ℕ → Bool) (fuel : ℕ)
    (hd : ∀ j, 0 ≤ draws j) :
    EvOrdered (create_pattern pt cfg s endT draws coins fuel) ∧
    ∀ ev ∈ create_pattern pt cfg s endT draws coins fuel, evEnd ev ≤ endT := by
  cases hres : patternResult pt cfg s endT draws coins fuel with
  | ok r =>
    obtain ⟨hw, ho⟩ := patternResult_inv _ _ _ _ _ _ _ hd _ hres
    simp only [create_pattern, hres]
    exact ⟨ho, fun ev hev => (hw ev hev).2⟩
  | error m =>
    simp [create_pattern, hres, EvOrdered, InWindow]

/-- Witness for C1 at a concrete input: the default continuous pattern over
a 30-minute window with all draws equal to 15 yields an ordered schedule. -/
theorem c1_witness :
    EvOrdered (create_pattern "continuous" ⟨none, none⟩ 0 30 (fun _ => 15) (fun _ => true) 5) :=
  (c1_create_pattern_ordered_within_window "continuous" ⟨none, none⟩ 0 30
    (fun _ => 15) (fun _ => true) 5 (fun j => by norm_num)).1

/-- Every event emitted by the continuous loop has duration at least `0.1`
minutes provided every sampled duration does. -/
theorem continuousLoop_minDur (dr : List ℚ) (endT : ℚ) (draws : ℕ → ℚ)
    (hd : ∀ j, 1/10 ≤ draws j) :
    ∀ fuel c k r, continuousLoop dr endT draws fuel c k = .ok r →
      ∀ ev ∈ r.events, 1/10 ≤ ev.durationMinutes := by
  intro fuel
  induction fuel with
  | zero =>
    intro c k r h
    simp only [continuousLoop, Except.ok.injEq] at h
    subst h
    simp
  | succ fuel ih =>
    intro c k r h
    rw [continuousLoop] at h
    split at h
    · split at h
      · split at h
        · split at h
          · simp only [Except.ok.injEq] at h
            subst h
            simp
          · rename_i hshort
            push_neg at hshort
            split at h
            · rename_i r' heq
              simp only [Except.ok.injEq] at h
              subst h
              intro ev hev
              rcases List.mem_cons.mp hev with rfl | hev'
              · exact hshort
              · exact ih _ _ _ heq ev hev'
            · exact absurd h (by simp)
        · split at h
          · rename_i r' heq
            simp only [Except.ok.injEq] at h
            subst h
            intro ev hev
            rcases List.mem_cons.mp hev with rfl | hev'
            · exact hd _
            · exact ih _ _ _ heq ev hev'
          · exact absurd h (by simp)
      · exact absurd h (by simp)
    · simp only [Except.ok.injEq] at h
      subst h
      simp

/-- Every event emitted by the motion loop has duration at least `0.1`
minutes: the loop drops any event whose (possibly truncated) duration is
not strictly above the threshold. -/
theorem motionLoop_minDur (vr ir : List ℚ) (endT : ℚ) (draws : ℕ → ℚ) :
    ∀ fuel c k r, motionLoop vr ir endT draws fuel c k = .ok r →
      ∀ ev ∈ r.events, 1/10 ≤ ev.durationMinutes := by
  intro fuel
  induction fuel with
  | zero =>
    intro c k r h
    simp only [motionLoop, Except.ok.injEq] at h
    subst h
    simp
  | succ fuel ih =>
    intro c k r h
    rw [motionLoop] at h
    split at h
    · split at h
      · split at h
        · simp only [Except.ok.injEq] at h
          subst h
          simp
        · split at h
          · split at h
            · rename_i r' heq
              simp only [Except.ok.injEq] at h
              subst h
              intro ev hev
              by_cases hemit : truncAt endT (c + draws k) (draws (k + 1)) > 1/10
              · rw [if_pos hemit, List.singleton_append] at hev
                rcases List.mem_cons.mp hev with rfl | hev'
                · exact le_of_lt hemit
                · exact ih _ _ _ heq ev hev'
              · rw [if_neg hemit, List.nil_append] at hev
                exact ih _ _ _ heq ev hev
            · exact absurd h (by simp)
          · exact absurd h (by simp)
      · exact absurd h (by simp)
    · simp only [Except.ok.injEq] at h
      subst h
      simp

/-- Every event emitted by the random on/off loop has duration at least
`0.1` minutes provided every sampled duration does (the inner blocks run
the continuous generator). -/
theorem randomLoop_minDur (cfg : PatternConfig) (endT : ℚ) (draws : ℕ → ℚ)
    (coins : ℕ → Bool) (hd : ∀ j, 1/10 ≤ draws j) :
    ∀ fuel c k r, randomLoop cfg endT draws coins fuel c k = .ok r →
      ∀ ev ∈ r.events, 1/10 ≤ ev.durationMinutes := by
  intro fuel
  induction fuel with
  | zero =>
    intro c k r h
    simp only [randomLoop, Except.ok.injEq] at h
    subst h
    simp
  | succ fuel ih =>
    intro c k r h
    rw [randomLoop] at h
    split at h
    · split at h
      · split at h
        · rename_i r1 heq1
          rw [generate_continuous] at heq1
          split at h
          · split at h
            · rename_i r2 heq2
              simp only [Except.ok.injEq] at h
              subst h
              intro ev hev
              rcases List.mem_append.mp hev with hev1 | hev2
              · exact continuousLoop_minDur _ _ _ hd _ _ _ _ heq1 ev hev1
              · exact ih _ _ _ heq2 ev hev2
            · exact absurd h (by simp)
          · simp only [Except.ok.injEq] at h
            subst h
            intro ev hev
            exact continuousLoop_minDur _ _ _ hd _ _ _ _ heq1 ev hev
        · exact absurd h (by simp)
      · split at h
        · rename_i r2 heq2
          simp only [Except.ok.injEq] at h
          subst h
          intro ev hev
          exact ih _ _ _ heq2 ev hev
        · exact absurd h (by simp)
    · simp only [Except.ok.injEq] at h
      subst h
      simp

/-- Minimum duration lifted to the dispatch of `create_pattern`. -/
theorem patternResult_minDur (pt : String) (cfg : PatternConfig) (s endT : ℚ)
    (draws : ℕ → ℚ) (coins : ℕ → Bool) (fuel : ℕ) (hd : ∀ j, 1/10 ≤ draws j)
    (r : LoopResult) (h : patternResult pt cfg s endT draws coins fuel = .ok r) :
    ∀ ev ∈ r.events, 1/10 ≤ ev.durationMinutes := by
  rw [patternResult] at h
  split at h
  · rw [generate_continuous] at h
    exact continuousLoop_minDur _ _ _ hd _ _ _ _ h
  · split at h
    · rw [generate_motion] at h
      exact motionLoop_minDur _ _ _ _ _ _ _ _ h
    · split at h
      · rw [generate_event] at h
        rw [eventLoop_eq_motionLoop] at h
        exact motionLoop_minDur _ _ _ _ _ _ _ _ h
      · split at h
        · rw [generate_random] at h
          exact randomLoop_minDur _ _ _ _ hd _ _ _ _ h
        · rw [generate_continuous] at h
          exact continuousLoop_minDur _ _ _ hd _ _ _ _ h

/-- C2 (amended): provided every sampled value is at least `0.1` minutes —
which holds whenever the configured duration and idle ranges have minimum
at least `0.1` — every event emitted by `create_pattern` has duration at
least `0.1` minutes.  Without that proviso the claim is false: the
continuous generator applies the `0.1`-minute discard rule only to
durations truncated at the window end, and emits a directly sampled
sub-threshold duration unchanged (see the counterexample). -/
theorem c2_amended_min_duration (pt : String) (cfg : PatternConfig) (s endT : ℚ)
    (draws : ℕ → ℚ) (coins : ℕ → Bool) (fuel : ℕ) (hd : ∀ j, 1/10 ≤ draws j) :
    ∀ ev ∈ create_pattern pt cfg s endT draws coins fuel, 1/10 ≤ ev.durationMinutes := by
  cases hres : patternResult pt cfg s endT draws coins fuel with
  | ok r =>
    simp only [create_pattern, hres]
    exact patternResult_minDur _ _ _ _ _ _ _ hd _ hres
  | error m =>
    simp [create_pattern, hres]

set_option maxHeartbeats 1000000 in
/-- Counterexample to C2 as stated: with a configured duration range of
`[0.05, 0.05]` every sampled duration is `0.05` minutes — below the `0.1`
threshold — yet the continuous pattern emits such events instead of
discarding them. -/
theorem c2_counterexample :
    (⟨0, 1/20, ""⟩ : RecordingEvent) ∈
      create_pattern "continuous" ⟨some [1/20, 1/20], none⟩ 0 (1/10)
        (fun _ => 1/20) (fun _ => true) 4 ∧
    ¬(1/10 ≤ ((1:ℚ)/20)) := by
  constructor
  · norm_num [create_pattern, patternResult, generate_continuous, continuousLoop]
  · norm_num

/-- Witness for C2 (amended) at a concrete input: all draws equal to 15
minutes, every emitted duration at least a tenth of a minute. -/
theorem c2_witness :
    (create_pattern "motion_triggered" ⟨some [5, 20], some [10, 30]⟩ 0 60
      (fun _ => 15) (fun _ => true) 5).all
        (fun ev => decide ((1 : ℚ)/10 ≤ ev.durationMinutes)) = true := by
  rw [List.all_eq_true]
  intro ev hev
  exact decide_eq_true
    (c2_amended_min_duration "motion_triggered" ⟨some [5, 20], some [10, 30]⟩ 0 60
      (fun _ => 15) (fun _ => true) 5 (fun j => by norm_num) ev hev)

/-- The dispatch selects the motion generator on the string
`"motion_triggered"`. -/
theorem patternResult_motion (cfg : PatternConfig) (s endT : ℚ)
    (draws : ℕ → ℚ) (coins : ℕ → Bool) (fuel : ℕ) :
    patternResult "motion_triggered" cfg s endT draws coins fuel =
      generate_motion cfg s endT draws 0 fuel := rfl

/-- The dispatch selects the continuous generator on the string
`"continuous"`. -/
theorem patternResult_continuous (cfg : PatternConfig) (s endT : ℚ)
    (draws : ℕ → ℚ) (coins : ℕ → Bool) (fuel : ℕ) :
    patternResult "continuous" cfg s endT draws coins fuel =
      generate_continuous cfg s endT draws 0 fuel := rfl

/-- C3 (amended): `create_pattern` never raises — it is a total function
into event lists.  For an unrecognized pattern kind it returns exactly the
continuous-pattern schedule.  But when the selected generator raises
internally, the `except` clause returns the empty sequence directly:
contrary to the claim, there is no second attempt with the continuous
pattern (see the counterexample). -/
theorem c3_amended_dispatch (pt : String) (cfg : PatternConfig) (s endT : ℚ)
    (draws : ℕ → ℚ) (coins : ℕ → Bool) (fuel : ℕ) :
    (pt ∉ (["continuous", "motion_triggered", "event_triggered", "random_on_off"] : List String) →
      create_pattern pt cfg s endT draws coins fuel =
        create_pattern "continuous" cfg s endT draws coins fuel) ∧
    (∀ msg, patternResult pt cfg s endT draws coins fuel = .error msg →
      create_pattern pt cfg s endT draws coins fuel = []) := by
  constructor
  · intro hpt
    simp only [List.mem_cons, List.not_mem_nil, or_false, not_or] at hpt
    obtain ⟨h1, h2, h3, h4⟩ := hpt
    simp only [create_pattern, patternResult, if_neg h1, if_neg h2, if_neg h3, if_neg h4,
      reduceIte]
  · intro msg hmsg
    simp only [create_pattern, hmsg]

set_option maxHeartbeats 1000000 in
/-- Counterexample to C3 as stated: with a malformed one-element
`idle_duration_range` the motion generator raises `IndexError`, and
`create_pattern` returns the empty sequence — not the continuous fallback
schedule, which would have succeeded and produced two events on the same
configuration. -/
theorem c3_counterexample :
    create_pattern "motion_triggered" ⟨none, some [10]⟩ 0 30
      (fun _ => 15) (fun _ => true) 3 = [] ∧
    create_pattern "continuous" ⟨none, some [10]⟩ 0 30
      (fun _ => 15) (fun _ => true) 3 = [⟨0, 15, ""⟩, ⟨15, 15, ""⟩] ∧
    ([] : List RecordingEvent) ≠ [⟨0, 15, ""⟩, ⟨15, 15, ""⟩] := by
  refine ⟨?_, ?_, by simp⟩
  · simp only [create_pattern, patternResult_motion]
    norm_num [generate_motion, motionLoop]
  · simp only [create_pattern, patternResult_continuous]
    norm_num [generate_continuous, continuousLoop]

/-- Witness for C3 (amended): an unrecognized pattern string produces the
continuous schedule, and the faulting motion configuration produces the
empty sequence. -/
theorem c3_witness :
    create_pattern "weird" ⟨none, none⟩ 0 30 (fun _ => 15) (fun _ => true) 5 =
      create_pattern "continuous" ⟨none, none⟩ 0 30 (fun _ => 15) (fun _ => true) 5 ∧
    create_pattern "motion_triggered" ⟨none, some [10]⟩ 0 30
      (fun _ => 15) (fun _ => true) 5 = [] :=
  ⟨(c3_amended_dispatch "weird" ⟨none, none⟩ 0 30 (fun _ => 15) (fun _ => true) 5).1
      (by simp),
   (c3_amended_dispatch "motion_triggered" ⟨none, some [10]⟩ 0 30
      (fun _ => 15) (fun _ => true) 5).2 "IndexError"
      (by rw [patternResult_motion]; norm_num [generate_motion, motionLoop])⟩

/-- Fuel bound for the continuous loop: when every sampled duration is at
least `lo > 0`, fuel `n + 1` with `endT - c + lo ≤ (n + 1) · lo` makes the
loop exit by itself, with the final cursor past `endT - 0.1` (either at or
past `endT`, or within the `0.1`-minute early-break threshold of it). -/
theorem continuousLoop_term (dr : List ℚ) (endT : ℚ) (draws : ℕ → ℚ) (lo : ℚ)
    (hlo : 0 < lo) (hd : ∀ j, lo ≤ draws j)
    (h0 : dr[0]?.isSome = true) (h1 : dr[1]?.isSome = true) :
    ∀ (n : ℕ) (c : ℚ) (k : ℕ), endT - c + lo ≤ ((n : ℚ) + 1) * lo →
      ∃ r, continuousLoop dr endT draws (n + 1) c k = .ok r ∧
        r.completed = true ∧ endT - 1/10 < r.cursor := by
  intro n
  induction n with
  | zero =>
    intro c k hb
    have hc : ¬ c < endT := by
      push_neg
      simp only [Nat.cast_zero] at hb
      linarith
    rw [continuousLoop, if_neg hc]
    push_neg at hc
    exact ⟨_, rfl, rfl, by norm_num; linarith⟩
  | succ n ih =>
    intro c k hb
    have hnl : (0 : ℚ) ≤ (n : ℚ) * lo := mul_nonneg (Nat.cast_nonneg n) hlo.le
    push_cast at hb
    by_cases hc : c < endT
    · obtain ⟨a, ha⟩ := Option.isSome_iff_exists.mp h0
      obtain ⟨b, hbb⟩ := Option.isSome_iff_exists.mp h1
      rw [continuousLoop, if_pos hc]
      simp only [ha, hbb]
      by_cases htr : c + draws k > endT
      · by_cases hshort : endT - c < 1/10
        · rw [if_pos htr, if_pos hshort]
          exact ⟨_, rfl, rfl, by norm_num; linarith⟩
        · rw [if_pos htr, if_neg hshort]
          have hb' : endT - (c + (endT - c)) + lo ≤ ((n : ℚ) + 1) * lo := by
            ring_nf
            nlinarith
          obtain ⟨r', hr', hcomp', hcur'⟩ := ih (c + (endT - c)) (k + 1) hb'
          rw [hr']
          exact ⟨_, rfl, hcomp', hcur'⟩
      · rw [if_neg htr]
        have hb' : endT - (c + draws k) + lo ≤ ((n : ℚ) + 1) * lo := by
          have hk := hd k
          linarith
        obtain ⟨r', hr', hcomp', hcur'⟩ := ih (c + draws k) (k + 1) hb'
        rw [hr']
        exact ⟨_, rfl, hcomp', hcur'⟩
    · rw [continuousLoop, if_neg hc]
      push_neg at hc
      exact ⟨_, rfl, rfl, by norm_num; linarith⟩

/-- C4 (amended): for every window and every configured duration range
`[lo, hi]` with `0 < lo ≤ hi` (and uniform draws inside the range), the
continuous generator terminates: every fuel `n + 1` satisfying the bound
`endT - s + lo ≤ (n + 1) · lo` — such an `n` exists for every window
because `lo` is positive (`c4_fuel_exists`) — makes the loop exit by
itself, with the cursor having reached or passed the window end or stopped
within the `0.1`-minute early-break threshold of it.  The positivity of
`lo` cannot be dropped: with the range `[0, 0]` the cursor never advances
and the loop never exits (see the counterexample). -/
theorem c4_amended_continuous_terminates (lo hi : ℚ) (ir : Option (List ℚ))
    (s endT : ℚ) (draws : ℕ → ℚ) (hlo : 0 < lo) (hlohi : lo ≤ hi)
    (hd : ∀ j, lo ≤ draws j ∧ draws j ≤ hi) (n : ℕ)
    (hn : endT - s + lo ≤ ((n : ℚ) + 1) * lo) :
    loopCompleted (generate_continuous ⟨some [lo, hi], ir⟩ s endT draws 0 (n + 1)) = true ∧
    endT - 1/10 < loopCursor (generate_continuous ⟨some [lo, hi], ir⟩ s endT draws 0 (n + 1)) := by
  obtain ⟨r, hr, hcomp, hcur⟩ :=
    continuousLoop_term [lo, hi] endT draws lo hlo (fun j => (hd j).1)
      (by simp) (by simp) n s 0 hn
  have hgen : generate_continuous ⟨some [lo, hi], ir⟩ s endT draws 0 (n + 1) = .ok r := by
    rw [generate_continuous]
    simpa using hr
  rw [hgen]
  exact ⟨hcomp, hcur⟩

/-- Enough fuel always exists: the bound required by the fuel-explicit
termination theorem is satisfiable for every window because `lo` is
positive, so the continuous generator does terminate. -/
theorem c4_fuel_exists (lo s endT : ℚ) (hlo : 0 < lo) :
    ∃ n : ℕ, endT - s + lo ≤ ((n : ℚ) + 1) * lo := by
  obtain ⟨n, hn⟩ := exists_nat_ge ((endT - s) / lo)
  refine ⟨n, ?_⟩
  have h1 : endT - s ≤ (n : ℚ) * lo := by
    rw [div_le_iff₀ hlo] at hn
    exact hn
  linarith

/-- The continuous loop never exits when the duration range is `[0, 0]` and
every draw is `0`: the cursor stays at the window start. -/
theorem continuousLoop_zero_stuck :
    ∀ fuel c k r, c = 0 →
      continuousLoop [0, 0] 1 (fun _ => 0) fuel c k = .ok r → r.completed = false := by
  intro fuel
  induction fuel with
  | zero =>
    intro c k r hc h
    simp only [continuousLoop, Except.ok.injEq] at h
    subst h
    rfl
  | succ fuel ih =>
    intro c k r hc h
    subst hc
    rw [continuousLoop] at h
    rw [if_pos (by norm_num)] at h
    simp only [List.getElem?_cons_zero, List.getElem?_cons_succ] at h
    rw [if_neg (by norm_num)] at h
    split at h
    · rename_i r' heq
      simp only [Except.ok.injEq] at h
      subst h
      simpa using ih (0 + 0) (k + 1) r' (by norm_num) heq
    · exact absurd h (by simp)

/-- Counterexample to C4 as stated: with the (min = max = 0) duration range
`[0, 0]` — which satisfies min ≤ max — and window `[0, 1]`, the continuous
generator never terminates: no amount of fuel makes its loop exit. -/
theorem c4_counterexample :
    ¬ continuousTerminates ⟨some [0, 0], none⟩ 0 1 (fun _ => 0) := by
  rintro ⟨fuel, hcomp⟩
  rw [generate_continuous] at hcomp
  simp only [Option.getD_some] at hcomp
  cases hr : continuousLoop [0, 0] 1 (fun _ => 0) fuel 0 0 with
  | ok r =>
    rw [hr] at hcomp
    have := continuousLoop_zero_stuck fuel 0 0 r rfl hr
    rw [loopCompleted] at hcomp
    rw [this] at hcomp
    exact Bool.false_ne_true hcomp
  | error msg =>
    rw [hr] at hcomp
    rw [loopCompleted] at hcomp
    exact Bool.false_ne_true hcomp

/-- Witness for C4 (amended): the range `[15, 15]` over a 30-minute window
with all draws equal to 15 completes with fuel 3, the cursor at the window
end. -/
theorem c4_witness :
    loopCompleted (generate_continuous ⟨some [15, 15], none⟩ 0 30 (fun _ => 15) 0 3) = true ∧
    (30 : ℚ) - 1/10 < loopCursor (generate_continuous ⟨some [15, 15], none⟩ 0 30 (fun _ => 15) 0 3) :=
  c4_amended_continuous_terminates 15 15 none 0 30 (fun _ => 15)
    (by norm_num) (by norm_num) (fun j => by norm_num) 2 (by norm_num)

/-- C5: with both `video_duration_range` and `idle_duration_range`
explicitly supplied in the configuration, and the same stream of uniform
draws, the event-triggered generator returns exactly the same result as the
motion-triggered generator over any window: the two pattern kinds are the
same algorithm and differ only in their default parameter values. -/
theorem c5_event_eq_motion (cfg : PatternConfig) (vr ir : List ℚ) (s endT : ℚ)
    (draws : ℕ → ℚ) (k fuel : ℕ) (hv : cfg.videoDurationRange = some vr)
    (hi2 : cfg.idleDurationRange = some ir) :
    generate_event cfg s endT draws k fuel = generate_motion cfg s endT draws k fuel := by
  rw [generate_event, generate_motion, hv, hi2]
  simp only [Option.getD_some]
  exact eventLoop_eq_motionLoop vr ir endT draws fuel s k

/-- Witness for C5 at a concrete configuration supplying both ranges. -/
theorem c5_witness :
    generate_event ⟨some [5, 20], some [10, 30]⟩ 0 60 (fun _ => 12) 0 5 =
      generate_motion ⟨some [5, 20], some [10, 30]⟩ 0 60 (fun _ => 12) 0 5 :=
  c5_event_eq_motion ⟨some [5, 20], some [10, 30]⟩ [5, 20] [10, 30] 0 60
    (fun _ => 12) 0 5 rfl rfl

/-- C6: with vendor profile `dahua`, camera `Camera03`, naming template
`{time}.mp4`, directory template `{date}/{channel}/` and event start
2024-03-05 14:07:09, the namer produces exactly the filename `14.07.09.mp4`
in subdirectory `2024-03-05/03/` (hyphenated date, dot-separated time,
channel digits zero-padded to two). -/
theorem c6_dahua_naming :
    renderArtifact "{time}.mp4" "{date}/{channel}/" "Camera03" "dahua"
      ⟨2024, 3, 5, 14, 7, 9⟩ = .ok ("14.07.09.mp4", "2024-03-05/03/") := by
  rfl

/-- C7 (amended): whenever rendering the naming template — or, the naming
template having rendered, the directory template — fails with a `KeyError`
(an unrecognized *named* placeholder), the namer does not raise: it returns
the fallback filename `{name}_{timestamp}.mp4` with an empty subdirectory.
A placeholder that Python treats as positional (empty or all digits, such
as `{0}`) instead raises `IndexError`, which the `except KeyError` clause
does not catch (see the counterexample). -/
theorem c7_amended_unknown_key_fallback (nt dt name profile : String) (t : DateTime)
    (h : (∃ k, formatString nt (templateVars name profile t) = .error (.keyError k)) ∨
         ((∃ fn, formatString nt (templateVars name profile t) = .ok fn) ∧
          (∃ k, formatString dt (templateVars name profile t) = .error (.keyError k)))) :
    renderArtifact nt dt name profile t = .ok (fallbackName name t, "") := by
  rw [renderArtifact]
  rcases h with ⟨k, hk⟩ | ⟨⟨fn, hfn⟩, ⟨k, hk⟩⟩
  · rw [hk]
  · rw [hfn, hk]

/-- Counterexample to C7 as stated: the template `{0}.mp4` references the
placeholder `0`, which is outside the recognized set, yet the renderer does
not substitute the fallback filename — Python raises `IndexError`
(a positional replacement field with no positional arguments), which the
`except KeyError` clause does not catch, so the error propagates. -/
theorem c7_counterexample :
    renderArtifact "{0}.mp4" "" "Cam1" "generic" ⟨2024, 1, 1, 0, 0, 0⟩ =
      .error .valueError ∧
    (Except.error RenderError.valueError ≠
      (.ok ("Cam1_20240101_000000.mp4", "") : Except RenderError (String × String))) := by
  exact ⟨rfl, by simp⟩

/-- Witness for C7 (amended): the unknown named placeholder `{foo}` makes
camera `Cam1` at 2024-01-01 00:00:00 fall back to
`Cam1_20240101_000000.mp4` with an empty subdirectory. -/
theorem c7_witness :
    formatString "{foo}.mp4" (templateVars "Cam1" "generic" ⟨2024, 1, 1, 0, 0, 0⟩) =
      .error (.keyError "foo") ∧
    renderArtifact "{foo}.mp4" "" "Cam1" "generic" ⟨2024, 1, 1, 0, 0, 0⟩ =
      .ok ("Cam1_20240101_000000.mp4", "") := by
  refine ⟨rfl, ?_⟩
  have h := c7_amended_unknown_key_fallback "{foo}.mp4" "" "Cam1" "generic"
    ⟨2024, 1, 1, 0, 0, 0⟩ (Or.inl ⟨"foo", rfl⟩)
  rw [h]
  rfl

/-- String append distributes over `toList`. -/
theorem toList_append (a b : String) : (a ++ b).toList = a.toList ++ b.toList := by
  simp [String.toList]

/-- C8: with retention enabled, the Retention Enforcer deletes exactly
`max(0, n - retention_count)` of the `n` `*.mp4` files in the output
directory root (natural-number subtraction), and the deleted files are the
oldest ones: every deleted file's modification time is at most that of
every matched file that survives.  In particular 105 files with retention
100 lose exactly the 5 oldest, and 100 files with retention 100 lose
none. -/
theorem c8_retention_deletes_oldest_excess (g : GlobalConfig) (entries : List FileEntry)
    (hg : g.cleanupOldFiles.getD true = true) :
    (cleanup_old_files g entries).length =
      (entries.filter (fun f => matchesGlobMp4 f.path)).length - g.retentionCount.getD 100 ∧
    ∀ f ∈ cleanup_old_files g entries,
      f ∈ entries.filter (fun f2 => matchesGlobMp4 f2.path) ∧
      ∀ f2 ∈ entries.filter (fun f3 => matchesGlobMp4 f3.path),
        f2 ∉ cleanup_old_files g entries → f.mtime ≤ f2.mtime := by
  have hperm := List.perm_insertionSort mtimeLe
    (entries.filter (fun f => matchesGlobMp4 f.path))
  have hsorted : List.Sorted mtimeLe
      ((entries.filter (fun f => matchesGlobMp4 f.path)).insertionSort mtimeLe) :=
    List.sorted_insertionSort mtimeLe (entries.filter (fun f => matchesGlobMp4 f.path))
  have hlen := hperm.length_eq
  have hcond : ¬ (g.cleanupOldFiles.getD true = false) := by rw [hg]; simp
  simp only [cleanup_old_files, if_neg hcond]
  by_cases hret : g.retentionCount.getD 100 <
      ((entries.filter (fun f => matchesGlobMp4 f.path)).insertionSort mtimeLe).length
  · rw [if_pos hret]
    constructor
    · rw [List.length_take]
      omega
    · intro f hf
      have hfS : f ∈ (entries.filter (fun f2 => matchesGlobMp4 f2.path)).insertionSort mtimeLe :=
        (List.take_sublist _ _).subset hf
      refine ⟨hperm.subset hfS, ?_⟩
      intro f2 hf2 hnot
      have hf2S : f2 ∈ (entries.filter (fun f3 => matchesGlobMp4 f3.path)).insertionSort mtimeLe :=
        hperm.mem_iff.mpr hf2
      have hsplit := List.take_append_drop
        (((entries.filter (fun f3 => matchesGlobMp4 f3.path)).insertionSort mtimeLe).length -
          g.retentionCount.getD 100)
        ((entries.filter (fun f3 => matchesGlobMp4 f3.path)).insertionSort mtimeLe)
      have hf2drop : f2 ∈ ((entries.filter (fun f3 => matchesGlobMp4 f3.path)).insertionSort
          mtimeLe).drop
          (((entries.filter (fun f3 => matchesGlobMp4 f3.path)).insertionSort mtimeLe).length -
            g.retentionCount.getD 100) := by
        rw [← hsplit] at hf2S
        rcases List.mem_append.mp hf2S with h | h
        · exact absurd h hnot
        · exact h
      have hp : List.Pairwise mtimeLe
          ((entries.filter (fun f3 => matchesGlobMp4 f3.path)).insertionSort mtimeLe) := hsorted
      rw [← hsplit] at hp
      exact (List.pairwise_append.mp hp).2.2 f hf f2 hf2drop
  · rw [if_neg hret]
    refine ⟨?_, by simp⟩
    simp only [List.length_nil]
    omega

/-- Witness for C8 at a concrete directory state: three files, retention
count 1, so exactly one file — the oldest matched one — is deleted. -/
theorem c8_witness :
    (cleanup_old_files ⟨some true, some 1⟩
        [⟨"a.mp4", 3⟩, ⟨"b.mp4", 1⟩, ⟨"c.txt", 0⟩]).length =
      (([⟨"a.mp4", 3⟩, ⟨"b.mp4", 1⟩, ⟨"c.txt", 0⟩] : List FileEntry).filter
          (fun f => matchesGlobMp4 f.path)).length -
        (GlobalConfig.mk (some true) (some 1)).retentionCount.getD 100 :=
  (c8_retention_deletes_oldest_excess ⟨some true, some 1⟩
    [⟨"a.mp4", 3⟩, ⟨"b.mp4", 1⟩, ⟨"c.txt", 0⟩] rfl).1

/-- C10: an artifact placed in a subdirectory produced by a non-empty
directory template never matches the non-recursive `*.mp4` glob of the
Retention Enforcer — its path contains a separator — so it is never
counted toward the retention limit and never deleted, whatever the
directory state. -/
theorem c10_subdir_artifacts_never_deleted (subdir fn : String) (mt : ℚ)
    (g : GlobalConfig) (entries : List FileEntry) (hsub : subdir ≠ "") :
    matchesGlobMp4 (joinPath subdir fn) = false ∧
    (⟨joinPath subdir fn, mt⟩ : FileEntry) ∉ cleanup_old_files g entries := by
  have hslash : (joinPath subdir fn).toList.contains '/' = true := by
    rw [joinPath, if_neg hsub]
    by_cases hlast : subdir.toList.getLast? = some '/'
    · rw [if_pos hlast]
      apply List.elem_eq_true_of_mem
      rw [toList_append]
      exact List.mem_append_left _ (mem_of_getLastOpt (Option.mem_def.mpr hlast))
    · rw [if_neg hlast]
      apply List.elem_eq_true_of_mem
      rw [toList_append, toList_append]
      exact List.mem_append_left _ (List.mem_append_right _ (by simp [String.toList]))
  have h1 : matchesGlobMp4 (joinPath subdir fn) = false := by
    rw [matchesGlobMp4, hslash]
    simp
  refine ⟨h1, ?_⟩
  intro hmem
  simp only [cleanup_old_files] at hmem
  split at hmem
  · simp at hmem
  · split at hmem
    · have hS : (⟨joinPath subdir fn, mt⟩ : FileEntry) ∈
          (entries.filter (fun f => matchesGlobMp4 f.path)).insertionSort mtimeLe :=
        (List.take_sublist _ _).subset hmem
      have hF := (List.perm_insertionSort mtimeLe
        (entries.filter (fun f => matchesGlobMp4 f.path))).subset hS
      have := (List.mem_filter.mp hF).2
      rw [h1] at this
      exact Bool.false_ne_true this
    · simp at hmem

/-- Witness for C10: the dahua-style subdirectory `2024-03-05/03/` keeps
its clip out of the glob and out of any deletion. -/
theorem c10_witness :
    matchesGlobMp4 (joinPath "2024-03-05/03/" "14.07.09.mp4") = false ∧
    decide ((⟨joinPath "2024-03-05/03/" "14.07.09.mp4", 5⟩ : FileEntry) ∈
      cleanup_old_files ⟨none, none⟩
        [⟨joinPath "2024-03-05/03/" "14.07.09.mp4", 5⟩]) = false :=
  ⟨(c10_subdir_artifacts_never_deleted "2024-03-05/03/" "14.07.09.mp4" 5
      ⟨none, none⟩ [⟨joinPath "2024-03-05/03/" "14.07.09.mp4", 5⟩] (by simp)).1,
   decide_eq_false
     ((c10_subdir_artifacts_never_deleted "2024-03-05/03/" "14.07.09.mp4" 5
      ⟨none, none⟩ [⟨joinPath "2024-03-05/03/" "14.07.09.mp4", 5⟩] (by simp)).2)⟩

/-- C9 (amended): a configured `run_duration_hours` of zero makes every
camera's schedule window run 365 days (525600 minutes) from the start
time; an *absent* key, however, defaults to 24 hours — a short finite
window, contrary to the claim (see the counterexample). -/
theorem c9_amended_window (s : ℚ) (pt : String) (cfg : PatternConfig)
    (draws : ℕ → ℚ) (coins : ℕ → Bool) (fuel : ℕ) :
    run_duration none = 24 ∧
    schedule_end s (run_duration (some 0)) = s + 365 * 24 * 60 ∧
    schedule_end s (run_duration none) = s + 24 * 60 ∧
    generate_schedule pt cfg s (run_duration (some 0)) draws coins fuel =
      create_pattern pt cfg s (s + 365 * 24 * 60) draws coins fuel := by
  have h0 : schedule_end s (run_duration (some 0)) = s + 365 * 24 * 60 := by
    simp [run_duration, schedule_end]
  have h24 : schedule_end s (run_duration none) = s + 24 * 60 := by
    rw [run_duration, Option.getD_none, schedule_end, if_pos (by norm_num)]
  refine ⟨rfl, h0, h24, ?_⟩
  rw [generate_schedule, h0]

/-- Counterexample to C9 as stated: with `run_duration_hours` absent the
schedule window is 1440 minutes (24 hours) — the ordinary finite default —
not the very-long 525600-minute (365-day) window that a zero duration
produces. -/
theorem c9_counterexample :
    run_duration none = 24 ∧
    schedule_end 0 (run_duration none) = 1440 ∧
    schedule_end 0 (run_duration (some 0)) = 525600 ∧
    (1440 : ℚ) ≠ 525600 := by
  refine ⟨rfl, ?_, ?_, by norm_num⟩
  · rw [run_duration, Option.getD_none, schedule_end, if_pos (by norm_num)]
    norm_num
  · simp [run_duration, schedule_end]
    norm_num
